import Mathlib

/-!
Verification of the shrimp-arena game-state engine (`game-state.ts`).

The TypeScript module keeps two mutable stores, a `Map<string, Shrimp>`
(insertion-ordered) and a `Food[]` array, and exposes `addShrimp`,
`removeShrimp`, `updateShrimpPosition`, `spawnFood`, `processEating` and
`getGameState`.  We embed the module as pure functions over a `GameState`
record.  JavaScript numbers are modelled as rationals; `Math.random()` is
modelled as a stream `rng : ℕ → ℚ` of draws consumed at an explicit cursor
`rngIdx`, one draw per `Math.random()` call, in call order.  The square root
in the collision tests is eliminated in the executable definitions in favour
of the equivalent squared comparison (`collideb`); the predicate `collides`
states the test with `Real.sqrt` exactly as the source writes it, and
`collideb_iff_collides` proves the two agree.
-/

/- Batteries marks the arithmetic of `Rat` irreducible, which blocks `decide`
and `rfl` on concrete rational computations; the embedding is evaluated on
concrete states throughout, so restore the definitional transparency. -/
set_option allowUnsafeReducibility true
attribute [semireducible] Rat.add Rat.mul Rat.sub Rat.neg Rat.inv Rat.div Rat.ofScientific

namespace ShrimpGame

/-- Game configuration record, mirroring the `GameConfig` interface. -/
structure GameConfig where
  mapWidth : ℚ
  mapHeight : ℚ
  initialShrimpSize : ℚ
  maxShrimpSize : ℚ
  initialFoodCount : ℕ
  minFoodSize : ℚ
  maxFoodSize : ℚ
  growthPerFood : ℚ
  growthPerShrimp : ℚ
  scorePerFood : ℚ
  scorePerShrimp : ℚ

/-- The `CONFIG` constant of the source. -/
def CONFIG : GameConfig :=
  { mapWidth := 800
    mapHeight := 600
    initialShrimpSize := 10
    maxShrimpSize := 50
    initialFoodCount := 10
    minFoodSize := 4
    maxFoodSize := 6
    growthPerFood := 1
    growthPerShrimp := 5
    scorePerFood := 5
    scorePerShrimp := 20 }

/-- A player entity (the `Shrimp` interface). -/
structure Shrimp where
  id : String
  x : ℚ
  y : ℚ
  size : ℚ
  score : ℚ
deriving DecidableEq, Inhabited

/-- A food entity (the `Food` interface). -/
structure Food where
  x : ℚ
  y : ℚ
  size : ℚ
deriving DecidableEq, Inhabited

/-- The module-level mutable state: the insertion-ordered `Map` of shrimps
(modelled as a list, unique ids), the `foods` array, and the random stream
with its cursor. -/
structure GameState where
  shrimps : List Shrimp
  foods : List Food
  rng : ℕ → ℚ
  rngIdx : ℕ

/-- The function `getRandomPosition`: `margin + Math.floor(Math.random() * (dim - 2 * margin))`
for each coordinate, given the two draws. -/
def getRandomPosition (r1 r2 : ℚ) : ℚ × ℚ :=
  let margin : ℚ := 50
  ((margin + (⌊r1 * (CONFIG.mapWidth - 2 * margin)⌋ : ℤ) : ℚ),
   (margin + (⌊r2 * (CONFIG.mapHeight - 2 * margin)⌋ : ℤ) : ℚ))

/-- The function `getRandomFoodSize`: `min + Math.floor(Math.random() * (max - min + 1))`. -/
def getRandomFoodSize (r : ℚ) : ℚ :=
  CONFIG.minFoodSize + ((⌊r * (CONFIG.maxFoodSize - CONFIG.minFoodSize + 1)⌋ : ℤ) : ℚ)

/-- `Map.delete`: removes the entry with the given key, preserving order. -/
def mapDelete (l : List Shrimp) (id : String) : List Shrimp :=
  l.filter (fun s => !(s.id == id))

/-- `Map.set`: replaces an existing entry in place (a JavaScript `Map` keeps
the original insertion position of a re-set key) or appends a new one. -/
def mapSet (l : List Shrimp) (s : Shrimp) : List Shrimp :=
  if l.any (fun t => t.id == s.id) then
    l.map (fun t => if t.id == s.id then s else t)
  else l ++ [s]

/-- The function `addShrimp`: delete any existing shrimp with the id, then
store a fresh one at a random position with the initial size and score 0.
Returns the new shrimp together with the updated state. -/
def addShrimp (st : GameState) (id : String) : Shrimp × GameState :=
  let shrimps1 := mapDelete st.shrimps id
  let position := getRandomPosition (st.rng st.rngIdx) (st.rng (st.rngIdx + 1))
  let newShrimp : Shrimp :=
    { id := id, x := position.1, y := position.2,
      size := CONFIG.initialShrimpSize, score := 0 }
  (newShrimp, { st with shrimps := mapSet shrimps1 newShrimp, rngIdx := st.rngIdx + 2 })

/-- The function `removeShrimp`: `Map.delete`, returning whether an entry
was removed. -/
def removeShrimp (st : GameState) (id : String) : Bool × GameState :=
  let removed := st.shrimps.any (fun s => s.id == id)
  (removed, { st with shrimps := mapDelete st.shrimps id })

/-- The function `updateShrimpPosition`: look the shrimp up; if absent
return `null` and leave the state alone, otherwise clamp the requested
coordinates into `[0, mapWidth] × [0, mapHeight]` and store them. -/
def updateShrimpPosition (st : GameState) (id : String) (x y : ℚ) :
    Option Shrimp × GameState :=
  match st.shrimps.find? (fun s => s.id == id) with
  | none => (none, st)
  | some shrimp =>
    let shrimp1 : Shrimp :=
      { shrimp with
        x := max 0 (min CONFIG.mapWidth x),
        y := max 0 (min CONFIG.mapHeight y) }
    (some shrimp1, { st with shrimps := mapSet st.shrimps shrimp1 })

/-- The loop body of `spawnFood`: push `count` random foods, three draws per
food (x, y, size, in call order). -/
def spawnFoodLoop (rng : ℕ → ℚ) : ℕ → List Food → ℕ → List Food × ℕ
  | 0, foods, k => (foods, k)
  | n + 1, foods, k =>
    let position := getRandomPosition (rng k) (rng (k + 1))
    spawnFoodLoop rng n
      (foods ++ [{ x := position.1, y := position.2,
                   size := getRandomFoodSize (rng (k + 2)) }])
      (k + 3)

/-- The function `spawnFood`. -/
def spawnFood (st : GameState) (count : ℕ) : GameState :=
  let r := spawnFoodLoop st.rng count st.foods st.rngIdx
  { st with foods := r.1, rngIdx := r.2 }

/-- Squared Euclidean distance between centers, from the `dx`, `dy` of the
source. -/
def distSq (dx dy : ℚ) : ℚ := dx * dx + dy * dy

/-- Executable form of the collision test
`Math.sqrt(dx*dx + dy*dy) < thr`, written without the square root. -/
def collideb (dx dy thr : ℚ) : Bool :=
  decide (0 < thr) && decide (distSq dx dy < thr * thr)

/-- The collision test exactly as the source computes it:
the Euclidean distance between centers is strictly below the threshold. -/
def collides (dx dy thr : ℚ) : Prop :=
  Real.sqrt ((distSq dx dy : ℚ) : ℝ) < ((thr : ℚ) : ℝ)

/-- The two forms of the collision test agree. -/
theorem collideb_iff_collides (dx dy thr : ℚ) :
    collideb dx dy thr = true ↔ collides dx dy thr := by
  unfold collideb collides
  constructor
  · intro h
    simp only [Bool.and_eq_true, decide_eq_true_eq] at h
    obtain ⟨hthr, hlt⟩ := h
    have h0 : (0 : ℝ) ≤ ((distSq dx dy : ℚ) : ℝ) := by
      have h1 : (0 : ℚ) ≤ distSq dx dy := by
        unfold distSq
        nlinarith [mul_self_nonneg dx, mul_self_nonneg dy]
      exact_mod_cast h1
    have hthr' : (0 : ℝ) < ((thr : ℚ) : ℝ) := by exact_mod_cast hthr
    have hlt' : ((distSq dx dy : ℚ) : ℝ) < ((thr : ℚ) : ℝ) * ((thr : ℚ) : ℝ) := by
      exact_mod_cast hlt
    calc Real.sqrt ((distSq dx dy : ℚ) : ℝ)
        < Real.sqrt (((thr : ℚ) : ℝ) * ((thr : ℚ) : ℝ)) :=
          Real.sqrt_lt_sqrt h0 hlt'
      _ = ((thr : ℚ) : ℝ) := Real.sqrt_mul_self hthr'.le
  · intro h
    have h0 : (0 : ℝ) ≤ ((distSq dx dy : ℚ) : ℝ) := by
      have h1 : (0 : ℚ) ≤ distSq dx dy := by
        unfold distSq
        nlinarith [mul_self_nonneg dx, mul_self_nonneg dy]
      exact_mod_cast h1
    have hthr' : (0 : ℝ) < ((thr : ℚ) : ℝ) :=
      lt_of_le_of_lt (Real.sqrt_nonneg _) h
    have hsq : ((distSq dx dy : ℚ) : ℝ) < ((thr : ℚ) : ℝ) * ((thr : ℚ) : ℝ) := by
    -- from sqrt d < thr and both sides nonnegative, square both sides
      calc ((distSq dx dy : ℚ) : ℝ)
          = Real.sqrt ((distSq dx dy : ℚ) : ℝ) * Real.sqrt ((distSq dx dy : ℚ) : ℝ) :=
            (Real.mul_self_sqrt h0).symm
        _ < ((thr : ℚ) : ℝ) * ((thr : ℚ) : ℝ) := by
            apply mul_self_lt_mul_self (Real.sqrt_nonneg _) h
    simp only [Bool.and_eq_true, decide_eq_true_eq]
    constructor
    · exact_mod_cast hthr'
    · exact_mod_cast hsq

/-- The clamped growth block repeated in the source:
`if (size < max) { size += g; if (size > max) size = max; }`. -/
def clampedGrow (s g m : ℚ) : ℚ :=
  if s < m then
    if s + g > m then m else s + g
  else s

/-- The winner update of Pass B: size grows by `growthPerShrimp` (clamped),
score grows by `scorePerShrimp`. -/
def eatGrow (sh : Shrimp) : Shrimp :=
  { sh with
    size := clampedGrow sh.size CONFIG.growthPerShrimp CONFIG.maxShrimpSize,
    score := sh.score + CONFIG.scorePerShrimp }

/-- Result of one shrimp's food loop in Pass A of `processEating`. -/
structure EatFoodsResult where
  shrimp : Shrimp
  survivors : List Food
  spawned : List Food
  rngIdx : ℕ
  eaten : ℕ
deriving DecidableEq

/-- The inner food loop of Pass A, which walks the `foods` array from the
last index down to 0.  The argument list is the foods in visiting order
(i.e. the array reversed); `survivors` comes back in that same visiting
order, and `spawned` holds the replacement foods in the order they were
pushed.  A replacement food is pushed past the loop cursor, so the current
shrimp never revisits it; an eaten food is spliced out, so it is gone for
the rest of the pass.  `eaten` counts the foods this shrimp consumed. -/
def eatFoodsRev (rng : ℕ → ℚ) : Shrimp → List Food → ℕ → EatFoodsResult
  | sh, [], k => ⟨sh, [], [], k, 0⟩
  | sh, f :: rest, k =>
    if collideb (sh.x - f.x) (sh.y - f.y) (sh.size + f.size) then
      let sh1 : Shrimp :=
        { sh with
          size := clampedGrow sh.size CONFIG.growthPerFood CONFIG.maxShrimpSize,
          score := sh.score + CONFIG.scorePerFood }
      let position := getRandomPosition (rng k) (rng (k + 1))
      let g : Food := { x := position.1, y := position.2,
                        size := getRandomFoodSize (rng (k + 2)) }
      let r := eatFoodsRev rng sh1 rest (k + 3)
      ⟨r.shrimp, r.survivors, g :: r.spawned, r.rngIdx, r.eaten + 1⟩
    else
      let r := eatFoodsRev rng sh rest k
      ⟨r.shrimp, f :: r.survivors, r.spawned, r.rngIdx, r.eaten⟩

/-- One shrimp's food loop, on the array in its stored order.  The array the
loop leaves behind is the surviving foods in their original order followed
by the replacements in push order. -/
def eatFoods (rng : ℕ → ℚ) (sh : Shrimp) (foods : List Food) (k : ℕ) :
    Shrimp × List Food × ℕ × ℕ :=
  let r := eatFoodsRev rng sh foods.reverse k
  (r.shrimp, r.survivors.reverse ++ r.spawned, r.rngIdx, r.eaten)

/-- Result of Pass A of `processEating`. -/
structure PassAResult where
  shrimps : List Shrimp
  foods : List Food
  rngIdx : ℕ
  eaten : ℕ

/-- Pass A of `processEating`: `shrimps.forEach(...)` in map (insertion)
order, each shrimp running its food loop over the current `foods` array. -/
def passA (rng : ℕ → ℚ) : List Shrimp → List Food → ℕ → PassAResult
  | [], foods, k => ⟨[], foods, k, 0⟩
  | sh :: rest, foods, k =>
    let r := eatFoods rng sh foods k
    let r2 := passA rng rest r.2.1 r.2.2.1
    ⟨r.1 :: r2.shrimps, r2.foods, r2.rngIdx, r.2.2.2 + r2.eaten⟩

/-- The inner `j` loop of Pass B.  `arr` is the `shrimpArray` snapshot
(`Array.from(shrimps.values())`; it is never shortened, only its cells are
mutated), `sh1` is `shrimpArray[i]` as read at the top of the outer
iteration, `i` its index.  Returns the updated array, the ids deleted from
the map during this inner loop, and whether the source forced the outer
loop to exit (`i = shrimpArray.length`).  The loop breaks as soon as a
shrimp is eaten.  The explicit fuel (callers supply `arr.length`, and `j`
starts above 0 and only grows) covers every iteration the source loop
performs, and an exhausted-fuel return equals the loop-exit return. -/
def passBInner : ℕ → List Shrimp → Shrimp → ℕ → ℕ → List Shrimp × List String × Bool
  | 0, arr, _, _, _ => (arr, [], false)
  | fuel + 1, arr, sh1, i, j =>
    if h : j < arr.length then
      let sh2 := arr.get ⟨j, h⟩
      if collideb (sh1.x - sh2.x) (sh1.y - sh2.y) ((sh1.size + sh2.size) / 2) then
        if sh1.size > sh2.size then
          (arr.set i (eatGrow sh1), [sh2.id], false)
        else if sh2.size > sh1.size then
          (arr.set j (eatGrow sh2), [sh1.id], true)
        else
          passBInner fuel arr sh1 i (j + 1)
      else
        passBInner fuel arr sh1 i (j + 1)
    else (arr, [], false)

/-- The outer `i` loop of Pass B, with explicit fuel; `passB` supplies fuel
`arr.length`, which covers every iteration the source loop performs (cells
are only overwritten, never added or removed, so the length is constant and
`i` grows by one per iteration). -/
def passBOuter : ℕ → List Shrimp → List String → ℕ → List Shrimp × List String
  | 0, arr, del, _ => (arr, del)
  | fuel + 1, arr, del, i =>
    if h : i < arr.length then
      let r := passBInner arr.length arr (arr.get ⟨i, h⟩) i (i + 1)
      if r.2.2 then (r.1, del ++ r.2.1)
      else passBOuter fuel r.1 (del ++ r.2.1) (i + 1)
    else (arr, del)

/-- Pass B of `processEating` as its effect on the shrimp map: snapshot the
map into `shrimpArray`, run the pair loops, and read the map back off as
the snapshot cells whose ids were not deleted (deletion removes a map entry
but never reorders the survivors, and surviving cells alias the map's
objects, so the mutated cell values are the map's values). -/
def passB (shrimps : List Shrimp) : List Shrimp :=
  let shrimpArray := shrimps
  let r := passBOuter shrimpArray.length shrimpArray [] 0
  r.1.filter (fun s => !(r.2.contains s.id))

/-- The function `processEating`: early return on an empty map, Pass A
(shrimp vs food), Pass B (shrimp vs shrimp), then the replenishment step
that tops the foods back up to `initialFoodCount`. -/
def processEating (st : GameState) : GameState :=
  if st.shrimps.length = 0 then st
  else
    let a := passA st.rng st.shrimps st.foods st.rngIdx
    let st1 : GameState :=
      { st with shrimps := passB a.shrimps, foods := a.foods, rngIdx := a.rngIdx }
    if st1.foods.length < CONFIG.initialFoodCount then
      spawnFood st1 (CONFIG.initialFoodCount - st1.foods.length)
    else st1

/-- The function `getGameState`: the pair of the current shrimp sequence
and a copy of the foods array. -/
def getGameState (st : GameState) : List Shrimp × List Food :=
  (st.shrimps, st.foods)

/-- A shrimp position lies within the map rectangle. -/
def inBounds (sh : Shrimp) : Prop :=
  0 ≤ sh.x ∧ sh.x ≤ CONFIG.mapWidth ∧ 0 ≤ sh.y ∧ sh.y ≤ CONFIG.mapHeight

instance (sh : Shrimp) : Decidable (inBounds sh) := by
  unfold inBounds
  infer_instance

/-- A sequence of `updateShrimpPosition` calls, as delivered by the input
handler (each triple is a session id and the requested coordinates). -/
def applyMoves (st : GameState) : List (String × ℚ × ℚ) → GameState
  | [] => st
  | m :: rest => applyMoves (updateShrimpPosition st m.1 m.2.1 m.2.2).2 rest

/-- The operations of the engine that a game session interleaves. -/
inductive Op where
  | add (id : String)
  | move (id : String) (x : ℚ) (y : ℚ)
  | tick
deriving DecidableEq

/-- Execute one operation against the state. -/
def execOp (st : GameState) : Op → GameState
  | .add id => (addShrimp st id).2
  | .move id x y => (updateShrimpPosition st id x y).2
  | .tick => processEating st

/-- Execute a sequence of operations. -/
def execOps (st : GameState) : List Op → GameState
  | [] => st
  | op :: rest => execOps (execOp st op) rest

section HelperLemmas

/-- Every entry surviving `mapDelete` has a different id. -/
theorem mapDelete_id_ne (l : List Shrimp) (id : String) :
    ∀ t ∈ mapDelete l id, t.id ≠ id := by
  intro t ht
  have h := List.mem_filter.mp ht
  simpa using h.2

/-- Clamped growth never leaves the admissible range. -/
theorem clampedGrow_le (s g m : ℚ) (h : s ≤ m) : clampedGrow s g m ≤ m := by
  unfold clampedGrow
  split
  · split
    · exact le_refl m
    · linarith [not_lt.mp (by assumption : ¬ s + g > m)]
  · exact h

/-- Clamped growth never shrinks when the increment is nonnegative. -/
theorem le_clampedGrow (s g m : ℚ) (hg : 0 ≤ g) : s ≤ clampedGrow s g m := by
  unfold clampedGrow
  split
  · split
    · linarith [(by assumption : s < m)]
    · linarith
  · exact le_refl s

/-- Below or at the cap, the clamped growth block is exactly
growth-then-clamp. -/
theorem clampedGrow_eq_min (s g m : ℚ) (h : s ≤ m) (hg : 0 ≤ g) :
    clampedGrow s g m = min (s + g) m := by
  unfold clampedGrow
  rcases lt_or_eq_of_le h with hlt | heq
  · rw [if_pos hlt]
    split
    · rw [min_eq_right]
      linarith [(by assumption : s + g > m)]
    · rw [min_eq_left]
      linarith [not_lt.mp (by assumption : ¬ s + g > m)]
  · rw [if_neg (by rw [heq]; exact lt_irrefl m), heq, min_eq_right (by linarith)]

/-- In a list of shrimps with pairwise-distinct ids, filtering by a member's
id returns exactly that member. -/
theorem filter_id_single {l : List Shrimp} {sh : Shrimp}
    (hnd : (l.map Shrimp.id).Nodup) (hmem : sh ∈ l) :
    l.filter (fun t => t.id == sh.id) = [sh] := by
  induction l with
  | nil => cases hmem
  | cons a tl ih =>
    rw [List.map_cons, List.nodup_cons] at hnd
    rcases List.mem_cons.mp hmem with rfl | htl
    · have htlnil : tl.filter (fun t => t.id == sh.id) = [] := by
        rw [List.filter_eq_nil_iff]
        intro t ht hbeq
        exact hnd.1 (List.mem_map.mpr ⟨t, ht, by simpa using hbeq⟩)
      simp [List.filter_cons, htlnil]
    · have hne : a.id ≠ sh.id := by
        intro he
        exact hnd.1 (he ▸ List.mem_map.mpr ⟨sh, htl, rfl⟩)
      simp only [List.filter_cons, beq_iff_eq, if_neg hne]
      exact ih hnd.2 htl

end HelperLemmas

section ClaimC8

/-- C8: both expected races are benign.  With a live player under `id`,
`removeShrimp` returns `true`; calling it again returns `false` and leaves
the state exactly as it was, and `updateShrimpPosition` for the now-absent
id returns `null` (`none`) and leaves the state exactly as it was.  All the
operations are total functions of the state, so no call can throw. -/
theorem removal_and_missing_input_benign (st : GameState) (id : String) (x y : ℚ)
    (hpresent : ∃ s ∈ st.shrimps, s.id = id) :
    (removeShrimp st id).1 = true
    ∧ (removeShrimp (removeShrimp st id).2 id).1 = false
    ∧ (removeShrimp (removeShrimp st id).2 id).2 = (removeShrimp st id).2
    ∧ (updateShrimpPosition (removeShrimp st id).2 id x y).1 = none
    ∧ (updateShrimpPosition (removeShrimp st id).2 id x y).2 = (removeShrimp st id).2 := by
  obtain ⟨s, hs, hsid⟩ := hpresent
  have hsh : (removeShrimp st id).2.shrimps = mapDelete st.shrimps id := rfl
  have habsent : ∀ t ∈ (removeShrimp st id).2.shrimps, (t.id == id) = false := by
    intro t ht
    rw [hsh] at ht
    simpa using mapDelete_id_ne st.shrimps id t ht
  have hfilter : mapDelete (removeShrimp st id).2.shrimps id = (removeShrimp st id).2.shrimps := by
    rw [mapDelete, List.filter_eq_self]
    intro t ht
    simp [habsent t ht]
  refine ⟨?_, ?_, ?_, ?_, ?_⟩
  · simp only [removeShrimp, List.any_eq_true]
    exact ⟨s, hs, by simp [hsid]⟩
  · simp only [removeShrimp, List.any_eq_false]
    intro t ht
    simp [habsent t ht]
  · show { (removeShrimp st id).2 with
      shrimps := mapDelete (removeShrimp st id).2.shrimps id } = (removeShrimp st id).2
    rw [hfilter]
  · have hnone : (removeShrimp st id).2.shrimps.find? (fun s => s.id == id) = none :=
      List.find?_eq_none.mpr (fun t ht => by simp [habsent t ht])
    simp [updateShrimpPosition, hnone]
  · have hnone : (removeShrimp st id).2.shrimps.find? (fun s => s.id == id) = none :=
      List.find?_eq_none.mpr (fun t ht => by simp [habsent t ht])
    simp [updateShrimpPosition, hnone]

/-- Witness for C8 at a concrete one-player state. -/
theorem removal_and_missing_input_benign_witness :
    (removeShrimp ⟨[⟨"A", 1, 2, 10, 0⟩], [], fun _ => 0, 0⟩ "A").1 = true
    ∧ (removeShrimp (removeShrimp ⟨[⟨"A", 1, 2, 10, 0⟩], [], fun _ => 0, 0⟩ "A").2 "A").1 = false
    ∧ (removeShrimp (removeShrimp ⟨[⟨"A", 1, 2, 10, 0⟩], [], fun _ => 0, 0⟩ "A").2 "A").2
        = (removeShrimp ⟨[⟨"A", 1, 2, 10, 0⟩], [], fun _ => 0, 0⟩ "A").2
    ∧ (updateShrimpPosition (removeShrimp ⟨[⟨"A", 1, 2, 10, 0⟩], [], fun _ => 0, 0⟩ "A").2 "A" 3 4).1 = none
    ∧ (updateShrimpPosition (removeShrimp ⟨[⟨"A", 1, 2, 10, 0⟩], [], fun _ => 0, 0⟩ "A").2 "A" 3 4).2
        = (removeShrimp ⟨[⟨"A", 1, 2, 10, 0⟩], [], fun _ => 0, 0⟩ "A").2 :=
  removal_and_missing_input_benign ⟨[⟨"A", 1, 2, 10, 0⟩], [], fun _ => 0, 0⟩ "A" 3 4
    ⟨⟨"A", 1, 2, 10, 0⟩, by simp, rfl⟩

end ClaimC8

section ClaimC9

/-- C9: after `addShrimp`, exactly one shrimp carries the session id (any
pre-existing one was deleted first), it is the returned shrimp, its score
is 0, its size is the configured initial size, and — whenever the two
`Math.random()` draws lie in `[0, 1)` — its position lies within the
50-unit inset margin of the map. -/
theorem addShrimp_spawn_spec (st : GameState) (id : String)
    (h1 : 0 ≤ st.rng st.rngIdx) (h2 : st.rng st.rngIdx < 1)
    (h3 : 0 ≤ st.rng (st.rngIdx + 1)) (h4 : st.rng (st.rngIdx + 1) < 1) :
    (addShrimp st id).2.shrimps.filter (fun s => s.id == id) = [(addShrimp st id).1]
    ∧ (addShrimp st id).1.score = 0
    ∧ (addShrimp st id).1.size = CONFIG.initialShrimpSize
    ∧ 50 ≤ (addShrimp st id).1.x ∧ (addShrimp st id).1.x ≤ CONFIG.mapWidth - 50
    ∧ 50 ≤ (addShrimp st id).1.y ∧ (addShrimp st id).1.y ≤ CONFIG.mapHeight - 50 := by
  have hx : (addShrimp st id).1.x = 50 + ((⌊st.rng st.rngIdx * 700⌋ : ℤ) : ℚ) := by
    show (50 : ℚ) + ((⌊st.rng st.rngIdx * (CONFIG.mapWidth - 2 * 50)⌋ : ℤ) : ℚ) = _
    norm_num [CONFIG]
  have hy : (addShrimp st id).1.y = 50 + ((⌊st.rng (st.rngIdx + 1) * 500⌋ : ℤ) : ℚ) := by
    show (50 : ℚ) + ((⌊st.rng (st.rngIdx + 1) * (CONFIG.mapHeight - 2 * 50)⌋ : ℤ) : ℚ) = _
    norm_num [CONFIG]
  refine ⟨?_, rfl, rfl, ?_, ?_, ?_, ?_⟩
  · have hid : (addShrimp st id).1.id = id := rfl
    have hany : (mapDelete st.shrimps id).any (fun t => t.id == (addShrimp st id).1.id) = false := by
      rw [List.any_eq_false]
      intro t ht
      simp [hid, mapDelete_id_ne st.shrimps id t ht]
    show (mapSet (mapDelete st.shrimps id) (addShrimp st id).1).filter (fun s => s.id == id)
        = [(addShrimp st id).1]
    rw [mapSet, if_neg (by rw [hany]; exact Bool.false_ne_true), List.filter_append]
    have hnil : (mapDelete st.shrimps id).filter (fun s => s.id == id) = [] := by
      rw [List.filter_eq_nil_iff]
      intro t ht
      simp [mapDelete_id_ne st.shrimps id t ht]
    rw [hnil, List.nil_append, List.filter_cons, if_pos (by simp [hid]), List.filter_nil]
  · rw [hx]
    have : (0 : ℤ) ≤ ⌊st.rng st.rngIdx * 700⌋ := Int.floor_nonneg.mpr (by positivity)
    have h0 : (0 : ℚ) ≤ ((⌊st.rng st.rngIdx * 700⌋ : ℤ) : ℚ) := by exact_mod_cast this
    linarith
  · rw [hx]
    have hlt : ⌊st.rng st.rngIdx * 700⌋ < (700 : ℤ) := by
      rw [Int.floor_lt]
      push_cast
      nlinarith
    have hle : ⌊st.rng st.rngIdx * 700⌋ ≤ (699 : ℤ) := by omega
    have : ((⌊st.rng st.rngIdx * 700⌋ : ℤ) : ℚ) ≤ 699 := by exact_mod_cast hle
    have hw : CONFIG.mapWidth - 50 = 750 := by norm_num [CONFIG]
    rw [hw]; linarith
  · rw [hy]
    have : (0 : ℤ) ≤ ⌊st.rng (st.rngIdx + 1) * 500⌋ := Int.floor_nonneg.mpr (by positivity)
    have h0 : (0 : ℚ) ≤ ((⌊st.rng (st.rngIdx + 1) * 500⌋ : ℤ) : ℚ) := by exact_mod_cast this
    linarith
  · rw [hy]
    have hlt : ⌊st.rng (st.rngIdx + 1) * 500⌋ < (500 : ℤ) := by
      rw [Int.floor_lt]
      push_cast
      nlinarith
    have hle : ⌊st.rng (st.rngIdx + 1) * 500⌋ ≤ (499 : ℤ) := by omega
    have : ((⌊st.rng (st.rngIdx + 1) * 500⌋ : ℤ) : ℚ) ≤ 499 := by exact_mod_cast hle
    have hh : CONFIG.mapHeight - 50 = 550 := by norm_num [CONFIG]
    rw [hh]; linarith

/-- Witness for C9: respawning over an existing player under the same id,
with the all-zero random stream. -/
theorem addShrimp_spawn_spec_witness :
    (addShrimp ⟨[⟨"A", 1, 1, 33, 7⟩], [], fun _ => 0, 0⟩ "A").2.shrimps.filter
        (fun s => s.id == "A") = [(addShrimp ⟨[⟨"A", 1, 1, 33, 7⟩], [], fun _ => 0, 0⟩ "A").1]
    ∧ (addShrimp ⟨[⟨"A", 1, 1, 33, 7⟩], [], fun _ => 0, 0⟩ "A").1.score = 0
    ∧ (addShrimp ⟨[⟨"A", 1, 1, 33, 7⟩], [], fun _ => 0, 0⟩ "A").1.size = CONFIG.initialShrimpSize
    ∧ 50 ≤ (addShrimp ⟨[⟨"A", 1, 1, 33, 7⟩], [], fun _ => 0, 0⟩ "A").1.x
    ∧ (addShrimp ⟨[⟨"A", 1, 1, 33, 7⟩], [], fun _ => 0, 0⟩ "A").1.x ≤ CONFIG.mapWidth - 50
    ∧ 50 ≤ (addShrimp ⟨[⟨"A", 1, 1, 33, 7⟩], [], fun _ => 0, 0⟩ "A").1.y
    ∧ (addShrimp ⟨[⟨"A", 1, 1, 33, 7⟩], [], fun _ => 0, 0⟩ "A").1.y ≤ CONFIG.mapHeight - 50 :=
  addShrimp_spawn_spec ⟨[⟨"A", 1, 1, 33, 7⟩], [], fun _ => 0, 0⟩ "A"
    (by norm_num) (by norm_num) (by norm_num) (by norm_num)

end ClaimC9

section ClaimC3

/-- Any member of a `mapSet` result is an old member or the new entry. -/
theorem mem_mapSet {l : List Shrimp} {v s : Shrimp} (hs : s ∈ mapSet l v) :
    s ∈ l ∨ s = v := by
  unfold mapSet at hs
  split at hs
  · obtain ⟨t, ht, hts⟩ := List.mem_map.mp hs
    by_cases hc : (t.id == v.id) = true
    · right
      rw [← hts, if_pos hc]
    · left
      rw [← hts, if_neg hc]
      exact ht
  · rcases List.mem_append.mp hs with h1 | h1
    · left; exact h1
    · right; simpa using h1

/-- Clamping the requested coordinates puts a shrimp in bounds,
whatever was asked for. -/
theorem clamp_inBounds (sh : Shrimp) (x y : ℚ) :
    inBounds { sh with
      x := max 0 (min CONFIG.mapWidth x), y := max 0 (min CONFIG.mapHeight y) } := by
  refine ⟨le_max_left 0 _, ?_, le_max_left 0 _, ?_⟩
  · exact max_le (by norm_num [CONFIG]) (min_le_left _ _)
  · exact max_le (by norm_num [CONFIG]) (min_le_left _ _)

/-- A single `updateShrimpPosition` call keeps every shrimp in bounds. -/
theorem updateShrimpPosition_preserves_bounds (st : GameState) (id : String) (x y : ℚ)
    (h : ∀ s ∈ st.shrimps, inBounds s) :
    ∀ s ∈ (updateShrimpPosition st id x y).2.shrimps, inBounds s := by
  unfold updateShrimpPosition
  cases hfind : st.shrimps.find? (fun s => s.id == id) with
  | none => exact h
  | some sh =>
    intro s hs
    rcases mem_mapSet hs with hmem | rfl
    · exact h s hmem
    · exact clamp_inBounds sh x y

/-- C3: for every sequence of `updateShrimpPosition` calls with arbitrary
(including negative or out-of-range) coordinates, starting from a state
whose players are all in bounds, every player's stored position stays in
`[0, mapWidth] × [0, mapHeight]`. -/
theorem bounds_invariant_under_moves (st : GameState)
    (h : ∀ s ∈ st.shrimps, inBounds s) (moves : List (String × ℚ × ℚ)) :
    ∀ s ∈ (applyMoves st moves).shrimps, inBounds s := by
  induction moves generalizing st with
  | nil => exact h
  | cons m rest ih =>
    exact ih _ (updateShrimpPosition_preserves_bounds st m.1 m.2.1 m.2.2 h)

/-- Witness for C3: a request far outside the map is clamped onto
the boundary. -/
theorem bounds_invariant_under_moves_witness :
    (applyMoves ⟨[⟨"A", 100, 100, 10, 0⟩], [], fun _ => 0, 0⟩
        [("A", -500, 7000)]).shrimps = [⟨"A", 0, 600, 10, 0⟩]
    ∧ inBounds ⟨"A", 0, 600, 10, 0⟩ := by
  have heq : (applyMoves ⟨[⟨"A", 100, 100, 10, 0⟩], [], fun _ => 0, 0⟩
      [("A", -500, 7000)]).shrimps = [⟨"A", 0, 600, 10, 0⟩] := by decide
  refine ⟨heq, ?_⟩
  exact bounds_invariant_under_moves ⟨[⟨"A", 100, 100, 10, 0⟩], [], fun _ => 0, 0⟩
    (by decide) [("A", -500, 7000)] ⟨"A", 0, 600, 10, 0⟩
    (by rw [heq]; exact List.mem_singleton_self _)

end ClaimC3

section ClaimC7

/-- The spawn loop pushes exactly `count` foods. -/
theorem spawnFoodLoop_length (rng : ℕ → ℚ) :
    ∀ (n : ℕ) (foods : List Food) (k : ℕ),
      (spawnFoodLoop rng n foods k).1.length = foods.length + n := by
  intro n
  induction n with
  | zero => intro foods k; rfl
  | succ n ih =>
    intro foods k
    rw [spawnFoodLoop, ih]
    simp
    omega

/-- C7: whenever an invocation of `processEating` consumed at least one
food in Pass A, the food count at the end of the invocation is at least
the configured floor `initialFoodCount`. -/
theorem replenishment_restores_floor (st : GameState)
    (h : 0 < (passA st.rng st.shrimps st.foods st.rngIdx).eaten) :
    CONFIG.initialFoodCount ≤ (processEating st).foods.length := by
  have hne : ¬ st.shrimps.length = 0 := by
    intro h0
    rw [List.length_eq_zero] at h0
    rw [h0] at h
    simp [passA] at h
  unfold processEating
  rw [if_neg hne]
  by_cases hlen :
      (passA st.rng st.shrimps st.foods st.rngIdx).foods.length < CONFIG.initialFoodCount
  · rw [if_pos hlen]
    show CONFIG.initialFoodCount ≤ (spawnFood _ _).foods.length
    unfold spawnFood
    rw [spawnFoodLoop_length]
    omega
  · rw [if_neg hlen]
    show CONFIG.initialFoodCount ≤ (passA st.rng st.shrimps st.foods st.rngIdx).foods.length
    omega

/-- Witness for C7: one shrimp sitting on the only food eats it; the tick
ends with the full floor of ten foods. -/
theorem replenishment_restores_floor_witness :
    0 < (passA (fun _ => (0 : ℚ)) [⟨"A", 100, 100, 10, 0⟩] [⟨100, 100, 4⟩] 0).eaten
    ∧ CONFIG.initialFoodCount
        ≤ (processEating ⟨[⟨"A", 100, 100, 10, 0⟩], [⟨100, 100, 4⟩], fun _ => 0, 0⟩).foods.length :=
  ⟨by decide,
   replenishment_restores_floor ⟨[⟨"A", 100, 100, 10, 0⟩], [⟨100, 100, 4⟩], fun _ => 0, 0⟩
     (by decide)⟩

end ClaimC7

section ClaimC2

/-- The food loop splits its input exactly into survivors and eaten foods,
and spawns exactly one replacement per eaten food. -/
theorem eatFoodsRev_counts (rng : ℕ → ℚ) :
    ∀ (foods : List Food) (sh : Shrimp) (k : ℕ),
      (eatFoodsRev rng sh foods k).survivors.length
          + (eatFoodsRev rng sh foods k).eaten = foods.length
      ∧ (eatFoodsRev rng sh foods k).spawned.length = (eatFoodsRev rng sh foods k).eaten := by
  intro foods
  induction foods with
  | nil => intro sh k; exact ⟨rfl, rfl⟩
  | cons f rest ih =>
    intro sh k
    rw [eatFoodsRev]
    split
    · have := ih { sh with
        size := clampedGrow sh.size CONFIG.growthPerFood CONFIG.maxShrimpSize,
        score := sh.score + CONFIG.scorePerFood } (k + 3)
      simp only [List.length_cons]
      omega
    · have := ih sh k
      simp only [List.length_cons]
      omega

/-- Pass A leaves the length of the foods array unchanged: every
consumption removes one food and pushes exactly one replacement. -/
theorem passA_foods_length (rng : ℕ → ℚ) :
    ∀ (shrimps : List Shrimp) (foods : List Food) (k : ℕ),
      (passA rng shrimps foods k).foods.length = foods.length := by
  intro shrimps
  induction shrimps with
  | nil => intro foods k; rfl
  | cons sh rest ih =>
    intro foods k
    rw [passA]
    simp only
    rw [ih]
    show (eatFoods rng sh foods k).2.1.length = foods.length
    unfold eatFoods
    have h := eatFoodsRev_counts rng foods.reverse sh k
    simp only [List.length_append, List.length_reverse] at h ⊢
    omega

/-- C2: Pass A declares a player–food collision exactly when the Euclidean
distance between centers is strictly below the full sum of the two sizes;
on a collision the shrimp grows by `growthPerFood` clamped to the maximum,
gains `scorePerFood`, the food is removed from the survivors (so it can
never be consumed again in the pass), exactly one replacement is spawned
per consumption, and Pass A as a whole leaves the food count unchanged. -/
theorem passA_consumption_spec (rng : ℕ → ℚ) :
    (∀ (sh : Shrimp) (f : Food),
      collideb (sh.x - f.x) (sh.y - f.y) (sh.size + f.size) = true
        ↔ collides (sh.x - f.x) (sh.y - f.y) (sh.size + f.size))
    ∧ (∀ (sh : Shrimp) (f : Food) (k : ℕ),
        sh.size ≤ CONFIG.maxShrimpSize →
        collides (sh.x - f.x) (sh.y - f.y) (sh.size + f.size) →
          (eatFoodsRev rng sh [f] k).shrimp.size
              = min (sh.size + CONFIG.growthPerFood) CONFIG.maxShrimpSize
          ∧ (eatFoodsRev rng sh [f] k).shrimp.score = sh.score + CONFIG.scorePerFood
          ∧ (eatFoodsRev rng sh [f] k).survivors = []
          ∧ (eatFoodsRev rng sh [f] k).spawned.length = 1
          ∧ (eatFoodsRev rng sh [f] k).eaten = 1)
    ∧ (∀ (sh : Shrimp) (f : Food) (k : ℕ),
        ¬ collides (sh.x - f.x) (sh.y - f.y) (sh.size + f.size) →
        eatFoodsRev rng sh [f] k = ⟨sh, [f], [], k, 0⟩)
    ∧ (∀ (sh : Shrimp) (foods : List Food) (k : ℕ),
        (eatFoodsRev rng sh foods k).spawned.length = (eatFoodsRev rng sh foods k).eaten)
    ∧ (∀ (shrimps : List Shrimp) (foods : List Food) (k : ℕ),
        (passA rng shrimps foods k).foods.length = foods.length) := by
  refine ⟨?_, ?_, ?_, ?_, passA_foods_length rng⟩
  · intro sh f
    exact collideb_iff_collides _ _ _
  · intro sh f k hmax hcol
    have hb : collideb (sh.x - f.x) (sh.y - f.y) (sh.size + f.size) = true :=
      (collideb_iff_collides _ _ _).mpr hcol
    rw [eatFoodsRev, if_pos hb]
    refine ⟨?_, rfl, rfl, rfl, rfl⟩
    show clampedGrow sh.size CONFIG.growthPerFood CONFIG.maxShrimpSize = _
    exact clampedGrow_eq_min _ _ _ hmax (by norm_num [CONFIG])
  · intro sh f k hcol
    have hb : collideb (sh.x - f.x) (sh.y - f.y) (sh.size + f.size) = false := by
      rcases Bool.eq_false_or_eq_true (collideb (sh.x - f.x) (sh.y - f.y) (sh.size + f.size))
        with ht | hf
      · exact absurd ((collideb_iff_collides _ _ _).mp ht) hcol
      · exact hf
    rw [eatFoodsRev, if_neg (by rw [hb]; exact Bool.false_ne_true)]
    rfl
  · intro sh foods k
    exact (eatFoodsRev_counts rng foods sh k).2

/-- Witness for C2: a size-10 shrimp on top of a size-4 food consumes it,
growing to 11 and scoring 5. -/
theorem passA_consumption_spec_witness :
    (eatFoodsRev (fun _ => (0 : ℚ)) ⟨"a", 0, 0, 10, 0⟩ [⟨0, 0, 4⟩] 0).shrimp.size
        = min ((10 : ℚ) + CONFIG.growthPerFood) CONFIG.maxShrimpSize
    ∧ (eatFoodsRev (fun _ => (0 : ℚ)) ⟨"a", 0, 0, 10, 0⟩ [⟨0, 0, 4⟩] 0).shrimp.score
        = (0 : ℚ) + CONFIG.scorePerFood
    ∧ (eatFoodsRev (fun _ => (0 : ℚ)) ⟨"a", 0, 0, 10, 0⟩ [⟨0, 0, 4⟩] 0).survivors = []
    ∧ (eatFoodsRev (fun _ => (0 : ℚ)) ⟨"a", 0, 0, 10, 0⟩ [⟨0, 0, 4⟩] 0).spawned.length = 1
    ∧ (eatFoodsRev (fun _ => (0 : ℚ)) ⟨"a", 0, 0, 10, 0⟩ [⟨0, 0, 4⟩] 0).eaten = 1 := by
  have h := passA_consumption_spec (fun _ => (0 : ℚ))
  have hcol : collides ((⟨"a", 0, 0, 10, 0⟩ : Shrimp).x - (⟨0, 0, 4⟩ : Food).x)
      ((⟨"a", 0, 0, 10, 0⟩ : Shrimp).y - (⟨0, 0, 4⟩ : Food).y)
      ((⟨"a", 0, 0, 10, 0⟩ : Shrimp).size + (⟨0, 0, 4⟩ : Food).size) :=
    (h.1 _ _).mp (by decide)
  exact h.2.1 ⟨"a", 0, 0, 10, 0⟩ ⟨0, 0, 4⟩ 0 (by norm_num [CONFIG]) hcol

end ClaimC2

section ClaimC5

/-- C5: resolution of an evaluated Pass B pair of distinct live players.
No collision (centers at least half the size-sum apart): both survive
unchanged.  Collision with strictly larger first player: the winner grows
by `growthPerShrimp` clamped to the maximum and scores `scorePerShrimp`,
the loser is removed; symmetrically for the second player.  Equal sizes:
both survive with sizes and scores unchanged. -/
theorem passB_pair_resolution (a b : Shrimp) (hid : a.id ≠ b.id)
    (ha : a.size ≤ CONFIG.maxShrimpSize) (hb : b.size ≤ CONFIG.maxShrimpSize) :
    (¬ collides (a.x - b.x) (a.y - b.y) ((a.size + b.size) / 2) →
        passB [a, b] = [a, b])
    ∧ (collides (a.x - b.x) (a.y - b.y) ((a.size + b.size) / 2) →
        (b.size < a.size →
          passB [a, b] = [{ a with
            size := min (a.size + CONFIG.growthPerShrimp) CONFIG.maxShrimpSize,
            score := a.score + CONFIG.scorePerShrimp }])
        ∧ (a.size < b.size →
          passB [a, b] = [{ b with
            size := min (b.size + CONFIG.growthPerShrimp) CONFIG.maxShrimpSize,
            score := b.score + CONFIG.scorePerShrimp }])
        ∧ (a.size = b.size → passB [a, b] = [a, b])) := by
  have hid' : b.id ≠ a.id := Ne.symm hid
  constructor
  · intro hncol
    have hc : collideb (a.x - b.x) (a.y - b.y) ((a.size + b.size) / 2) = false := by
      rcases Bool.eq_false_or_eq_true
          (collideb (a.x - b.x) (a.y - b.y) ((a.size + b.size) / 2)) with ht | hf
      · exact absurd ((collideb_iff_collides _ _ _).mp ht) hncol
      · exact hf
    have hinner : passBInner 2 [a, b] a 0 1 = ([a, b], [], false) := by
      simp [passBInner, hc]
    have hinner2 : passBInner 2 [a, b] b 1 2 = ([a, b], [], false) := by
      simp [passBInner]
    simp [passB, passBOuter, hinner, hinner2]
  · intro hcol
    have hc : collideb (a.x - b.x) (a.y - b.y) ((a.size + b.size) / 2) = true :=
      (collideb_iff_collides _ _ _).mpr hcol
    refine ⟨?_, ?_, ?_⟩
    · intro hba
      have hinner : passBInner 2 [a, b] a 0 1 = ([eatGrow a, b], [b.id], false) := by
        simp [passBInner, hc, hba]
      have hinner2 : passBInner 2 [eatGrow a, b] b 1 2 = ([eatGrow a, b], [], false) := by
        simp [passBInner]
      simp [passB, passBOuter, hinner, hinner2]
      simp [eatGrow, hid, hid',
        clampedGrow_eq_min a.size CONFIG.growthPerShrimp CONFIG.maxShrimpSize ha
          (by norm_num [CONFIG])]
    · intro hab
      have hnba : ¬ a.size > b.size := by linarith
      have hinner : passBInner 2 [a, b] a 0 1 = ([a, eatGrow b], [a.id], true) := by
        simp [passBInner, hc, hab, hnba]
      simp [passB, passBOuter, hinner]
      simp [eatGrow, hid, hid',
        clampedGrow_eq_min b.size CONFIG.growthPerShrimp CONFIG.maxShrimpSize hb
          (by norm_num [CONFIG])]
    · intro heq
      have hinner : passBInner 2 [a, b] a 0 1 = ([a, b], [], false) := by
        simp [passBInner, hc, heq]
      have hinner2 : passBInner 2 [a, b] b 1 2 = ([a, b], [], false) := by
        simp [passBInner]
      simp [passB, passBOuter, hinner, hinner2]

/-- Witness for C5, the spec's own scenario: size 30 at (200,200) against
size 10 at (205,200); distance 5 is below half the size sum 20, so the
larger player consumes the smaller and ends at size 35, score 20. -/
theorem passB_pair_resolution_witness :
    passB [⟨"A", 200, 200, 30, 0⟩, ⟨"B", 205, 200, 10, 0⟩] = [⟨"A", 200, 200, 35, 20⟩] := by
  have hcol : collides ((⟨"A", 200, 200, 30, 0⟩ : Shrimp).x - (⟨"B", 205, 200, 10, 0⟩ : Shrimp).x)
      ((⟨"A", 200, 200, 30, 0⟩ : Shrimp).y - (⟨"B", 205, 200, 10, 0⟩ : Shrimp).y)
      (((⟨"A", 200, 200, 30, 0⟩ : Shrimp).size + (⟨"B", 205, 200, 10, 0⟩ : Shrimp).size) / 2) :=
    (collideb_iff_collides _ _ _).mp (by decide)
  have h := ((passB_pair_resolution ⟨"A", 200, 200, 30, 0⟩ ⟨"B", 205, 200, 10, 0⟩
      (by decide) (by decide) (by decide)).2 hcol).1 (by decide)
  rw [h]
  decide

end ClaimC5

section ClaimC1

/-- C1, evaluated at the failing input: three mutually overlapping shrimps
A (size 30), B (size 10), C (size 5), all at the origin, in map order
[A, B, C].  Pair (0,1): A eats B and B's id is deleted from the map.  The
snapshot array, however, still holds the destroyed B, so the outer loop
next evaluates pair (1,2) with B as `shrimp1`: the destroyed B wins
against the live C and C's id is deleted too.  The recorded deletion order
is [B, C] and only A survives the pass — under the claimed exclusion
policy the pair (1,2) would never have been evaluated and C would have
survived the tick. -/
theorem passB_destroyed_player_still_eats :
    (passBOuter 3 [⟨"A", 0, 0, 30, 0⟩, ⟨"B", 0, 0, 10, 0⟩, ⟨"C", 0, 0, 5, 0⟩] [] 0).2
        = ["B", "C"]
    ∧ passB [⟨"A", 0, 0, 30, 0⟩, ⟨"B", 0, 0, 10, 0⟩, ⟨"C", 0, 0, 5, 0⟩]
        = [⟨"A", 0, 0, 35, 20⟩] := by
  constructor <;> decide

end ClaimC1

namespace RefModel

/-!
Reference semantics for C6.  In the source, `getGameState` returns
`Array.from(shrimps.values())` and `[...foods]`: both copy the ARRAY, but
the shrimp entries are the very objects the map holds, and
`updateShrimpPosition` (like `processEating`) mutates those objects in
place.  To state what a snapshot holder observes we model the object store
explicitly: shrimp objects live on a heap addressed by `ℕ`, the map's
values are references, and a snapshot holds the copied list of references
plus the food values (food objects are never mutated in place by the
module, only spliced in and out of the array, so values suffice for
them). -/

/-- The heap of shrimp objects, the map's references in insertion order,
and the foods array. -/
structure HState where
  heap : List Shrimp
  shrimpRefs : List ℕ
  foods : List Food

/-- Dereference a shrimp object. -/
def readShrimp (heap : List Shrimp) (r : ℕ) : Shrimp :=
  heap.getD r default

/-- The function `getGameState` under reference semantics: a fresh array
holding the shrimp references, and a fresh copy of the foods array. -/
def getGameState (st : HState) : List ℕ × List Food :=
  (st.shrimpRefs, st.foods)

/-- What a holder of a snapshot sees when reading it at some later time,
against the heap as it is then. -/
def readSnapshot (heap : List Shrimp) (snap : List ℕ × List Food) :
    List Shrimp × List Food :=
  (snap.1.map (readShrimp heap), snap.2)

/-- The function `updateShrimpPosition` under reference semantics: the
found shrimp object is mutated in place on the heap. -/
def updateShrimpPosition (st : HState) (id : String) (x y : ℚ) : HState :=
  match st.shrimpRefs.find? (fun r => (readShrimp st.heap r).id == id) with
  | none => st
  | some r =>
    let sh := readShrimp st.heap r
    let sh1 : Shrimp :=
      { sh with
        x := max 0 (min CONFIG.mapWidth x),
        y := max 0 (min CONFIG.mapHeight y) }
    { st with heap := st.heap.set r sh1 }

end RefModel

section ClaimC6

/-- C6 fails on the code: a snapshot taken before `updateShrimpPosition`
shares the player objects with the world (the source copies only the
array), so the holder of the old snapshot observes the later mutation.
Concretely: one player "A" at (100,100); snapshot; then the player moves
to (200,200); reading the old snapshot now yields (200,200), not the
recorded (100,100). -/
theorem snapshot_observes_later_mutation :
    RefModel.readSnapshot
        (RefModel.updateShrimpPosition ⟨[⟨"A", 100, 100, 10, 0⟩], [0], []⟩ "A" 200 200).heap
        (RefModel.getGameState ⟨[⟨"A", 100, 100, 10, 0⟩], [0], []⟩)
      ≠ RefModel.readSnapshot
        (⟨[⟨"A", 100, 100, 10, 0⟩], [0], []⟩ : RefModel.HState).heap
        (RefModel.getGameState ⟨[⟨"A", 100, 100, 10, 0⟩], [0], []⟩) := by
  decide

/-- C6 amended: the part of the snapshot that is genuinely stable.  The
food entries of a previously taken snapshot never change under a later
`updateShrimpPosition`, and the snapshot's player list keeps the same
references with the same player ids — but the position fields read through
the old snapshot are live, as the counterexample shows. -/
theorem snapshot_foods_and_ids_stable (st : RefModel.HState) (id : String) (x y : ℚ) :
    (RefModel.readSnapshot (RefModel.updateShrimpPosition st id x y).heap
        (RefModel.getGameState st)).2
      = (RefModel.readSnapshot st.heap (RefModel.getGameState st)).2
    ∧ (RefModel.readSnapshot (RefModel.updateShrimpPosition st id x y).heap
        (RefModel.getGameState st)).1.map Shrimp.id
      = (RefModel.readSnapshot st.heap (RefModel.getGameState st)).1.map Shrimp.id := by
  unfold RefModel.updateShrimpPosition
  cases hfind : st.shrimpRefs.find? (fun r => (RefModel.readShrimp st.heap r).id == id) with
  | none => exact ⟨rfl, rfl⟩
  | some r =>
    refine ⟨rfl, ?_⟩
    unfold RefModel.readSnapshot RefModel.getGameState
    simp only [List.map_map]
    apply List.map_congr_left
    intro q hq
    show (RefModel.readShrimp _ q).id = (RefModel.readShrimp st.heap q).id
    unfold RefModel.readShrimp
    rcases eq_or_ne q r with rfl | hne
    · by_cases hlt : q < st.heap.length
      · rw [List.getD_eq_getElem?_getD, List.getD_eq_getElem?_getD,
          List.getElem?_set_self hlt, List.getElem?_eq_getElem hlt]
        rfl
      · rw [List.getD_eq_getElem?_getD, List.getD_eq_getElem?_getD,
          List.getElem?_set_self']
        cases hx : st.heap[q]? with
        | none => simp [hx]
        | some v =>
          exact absurd (List.getElem?_eq_some.mp hx).fst hlt
    · rw [List.getD_eq_getElem?_getD, List.getD_eq_getElem?_getD,
        List.getElem?_set_ne (Ne.symm hne)]
      rw [List.getD_eq_getElem?_getD]

end ClaimC6

section ClaimC4

/-- How one engine step may change one cell of the shrimp store: the id is
unchanged, the size does not shrink, and the size cap is preserved. -/
def SizeStep (a b : Shrimp) : Prop :=
  a.id = b.id ∧ a.size ≤ b.size
    ∧ (a.size ≤ CONFIG.maxShrimpSize → b.size ≤ CONFIG.maxShrimpSize)

theorem sizeStep_refl (a : Shrimp) : SizeStep a a :=
  ⟨rfl, le_refl _, fun h => h⟩

theorem sizeStep_trans {a b c : Shrimp} (h1 : SizeStep a b) (h2 : SizeStep b c) :
    SizeStep a c :=
  ⟨h1.1.trans h2.1, h1.2.1.trans h2.2.1, fun h => h2.2.2 (h1.2.2 h)⟩

/-- The Pass B winner update is a `SizeStep`. -/
theorem sizeStep_eatGrow (sh : Shrimp) : SizeStep sh (eatGrow sh) :=
  ⟨rfl, le_clampedGrow _ _ _ (by norm_num [CONFIG]), fun h => clampedGrow_le _ _ _ h⟩

theorem forall₂_sizeStep_refl (l : List Shrimp) : List.Forall₂ SizeStep l l :=
  List.forall₂_same.mpr (fun x _ => sizeStep_refl x)

theorem forall₂_sizeStep_trans {l1 l2 l3 : List Shrimp}
    (h12 : List.Forall₂ SizeStep l1 l2) (h23 : List.Forall₂ SizeStep l2 l3) :
    List.Forall₂ SizeStep l1 l3 := by
  induction h12 generalizing l3 with
  | nil =>
    cases h23
    exact List.Forall₂.nil
  | cons h t ih =>
    cases h23 with
    | cons h' t' => exact List.Forall₂.cons (sizeStep_trans h h') (ih t')

/-- Overwriting one cell with a `SizeStep` of its value is a pointwise
`SizeStep` of the array. -/
theorem forall₂_sizeStep_set {l : List Shrimp} {v : Shrimp} {n : ℕ}
    (hv : ∀ h : n < l.length, SizeStep (l.get ⟨n, h⟩) v) :
    List.Forall₂ SizeStep l (l.set n v) := by
  induction l generalizing n with
  | nil => exact List.Forall₂.nil
  | cons a tl ih =>
    cases n with
    | zero =>
      exact List.Forall₂.cons (hv (by simp)) (forall₂_sizeStep_refl tl)
    | succ n =>
      refine List.Forall₂.cons (sizeStep_refl a) (ih ?_)
      intro h
      exact hv (by simpa using Nat.succ_lt_succ h)

theorem forall₂_sizeStep_map_id {l l' : List Shrimp}
    (h : List.Forall₂ SizeStep l l') : l.map Shrimp.id = l'.map Shrimp.id := by
  induction h with
  | nil => rfl
  | cons hab t ih => simp [hab.1, ih]

/-- A member of the right list of a pointwise `SizeStep` comes from a
member of the left list. -/
theorem forall₂_sizeStep_mem_right {l l' : List Shrimp} {t : Shrimp}
    (h : List.Forall₂ SizeStep l l') (ht : t ∈ l') : ∃ u ∈ l, SizeStep u t := by
  induction h with
  | nil => cases ht
  | cons hab htail ih =>
    rcases List.mem_cons.mp ht with rfl | hmem
    · exact ⟨_, List.mem_cons_self _ _, hab⟩
    · obtain ⟨u, hu, hstep⟩ := ih hmem
      exact ⟨u, List.mem_cons_of_mem _ hu, hstep⟩

/-- With pairwise-distinct ids, a shared id forces equality. -/
theorem mem_id_unique {l : List Shrimp} {s t : Shrimp}
    (hnd : (l.map Shrimp.id).Nodup) (hs : s ∈ l) (ht : t ∈ l) (hid : t.id = s.id) :
    t = s := by
  have h1 := filter_id_single hnd hs
  have h2 : t ∈ l.filter (fun u => u.id == s.id) :=
    List.mem_filter.mpr ⟨ht, by simp [hid]⟩
  rw [h1] at h2
  simpa using h2

/-- The food loop of Pass A is a `SizeStep` on its shrimp. -/
theorem eatFoodsRev_sizeStep (rng : ℕ → ℚ) :
    ∀ (foods : List Food) (sh : Shrimp) (k : ℕ),
      SizeStep sh (eatFoodsRev rng sh foods k).shrimp := by
  intro foods
  induction foods with
  | nil => intro sh k; exact sizeStep_refl sh
  | cons f rest ih =>
    intro sh k
    rw [eatFoodsRev]
    split
    · refine sizeStep_trans ?_ (ih _ (k + 3))
      exact ⟨rfl, le_clampedGrow _ _ _ (by norm_num [CONFIG]),
        fun h => clampedGrow_le _ _ _ h⟩
    · exact ih sh k

/-- Pass A is a pointwise `SizeStep` on the shrimp store. -/
theorem passA_sizeStep (rng : ℕ → ℚ) :
    ∀ (shrimps : List Shrimp) (foods : List Food) (k : ℕ),
      List.Forall₂ SizeStep shrimps (passA rng shrimps foods k).shrimps := by
  intro shrimps
  induction shrimps with
  | nil => intro foods k; exact List.Forall₂.nil
  | cons sh rest ih =>
    intro foods k
    rw [passA]
    exact List.Forall₂.cons (eatFoodsRev_sizeStep rng foods.reverse sh k) (ih _ _)

/-- The inner Pass B loop is a pointwise `SizeStep` on the snapshot array,
provided `sh1` is the value of cell `i`. -/
theorem passBInner_sizeStep :
    ∀ (fuel : ℕ) (arr : List Shrimp) (sh1 : Shrimp) (i j : ℕ),
      (∀ hi : i < arr.length, arr.get ⟨i, hi⟩ = sh1) →
      List.Forall₂ SizeStep arr (passBInner fuel arr sh1 i j).1 := by
  intro fuel
  induction fuel with
  | zero => intro arr sh1 i j _; exact forall₂_sizeStep_refl arr
  | succ fuel ih =>
    intro arr sh1 i j hsh1
    rw [passBInner]
    split
    · dsimp only
      split
      · split
        · refine forall₂_sizeStep_set ?_
          intro h
          rw [hsh1 h]
          exact sizeStep_eatGrow sh1
        · split
          · refine forall₂_sizeStep_set ?_
            intro h
            exact sizeStep_eatGrow _
          · exact ih arr sh1 i (j + 1) hsh1
      · exact ih arr sh1 i (j + 1) hsh1
    · exact forall₂_sizeStep_refl arr

/-- The outer Pass B loop is a pointwise `SizeStep` on the snapshot
array. -/
theorem passBOuter_sizeStep :
    ∀ (fuel : ℕ) (arr : List Shrimp) (del : List String) (i : ℕ),
      List.Forall₂ SizeStep arr (passBOuter fuel arr del i).1 := by
  intro fuel
  induction fuel with
  | zero => intro arr del i; exact forall₂_sizeStep_refl arr
  | succ fuel ih =>
    intro arr del i
    rw [passBOuter]
    split
    · have h1 := passBInner_sizeStep arr.length arr (arr.get ⟨i, by assumption⟩) i (i + 1)
        (fun hi => rfl)
      dsimp only
      split
      · exact h1
      · exact forall₂_sizeStep_trans h1 (ih _ _ _)
    · exact forall₂_sizeStep_refl arr

/-- A survivor of Pass B descends from a member of the input map by a
`SizeStep`. -/
theorem passB_mem_sizeStep {l : List Shrimp} {t : Shrimp} (ht : t ∈ passB l) :
    ∃ u ∈ l, SizeStep u t := by
  unfold passB at ht
  exact forall₂_sizeStep_mem_right (passBOuter_sizeStep l.length l [] 0)
    (List.mem_of_mem_filter ht)

/-- The shrimp store `processEating` leaves behind. -/
theorem processEating_shrimps (st : GameState) :
    (processEating st).shrimps =
      if st.shrimps.length = 0 then st.shrimps
      else passB (passA st.rng st.shrimps st.foods st.rngIdx).shrimps := by
  unfold processEating
  split
  · rfl
  · dsimp only
    split <;> rfl

/-- A shrimp alive after `processEating` descends from a shrimp of the
input store by a `SizeStep`. -/
theorem processEating_mem_sizeStep {st : GameState} {t : Shrimp}
    (ht : t ∈ (processEating st).shrimps) : ∃ u ∈ st.shrimps, SizeStep u t := by
  rw [processEating_shrimps] at ht
  by_cases h0 : st.shrimps.length = 0
  · rw [if_pos h0] at ht
    exact ⟨t, ht, sizeStep_refl t⟩
  · rw [if_neg h0] at ht
    obtain ⟨u1, hu1, hstep1⟩ := passB_mem_sizeStep ht
    obtain ⟨u, hu, hstep⟩ := forall₂_sizeStep_mem_right
      (passA_sizeStep st.rng st.shrimps st.foods st.rngIdx) hu1
    exact ⟨u, hu, sizeStep_trans hstep hstep1⟩

/-- Re-setting an existing key keeps the id sequence of the map. -/
theorem mapSet_map_id_of_any (l : List Shrimp) (v : Shrimp)
    (h : l.any (fun t => t.id == v.id) = true) :
    (mapSet l v).map Shrimp.id = l.map Shrimp.id := by
  unfold mapSet
  rw [if_pos h, List.map_map]
  apply List.map_congr_left
  intro t ht
  show (if t.id == v.id then v else t).id = t.id
  by_cases hc : (t.id == v.id) = true
  · rw [if_pos hc]
    exact (eq_of_beq hc).symm
  · rw [if_neg hc]

/-- Pass B keeps the surviving ids pairwise distinct. -/
theorem nodup_passB {l : List Shrimp} (hnd : (l.map Shrimp.id).Nodup) :
    ((passB l).map Shrimp.id).Nodup := by
  have harr := forall₂_sizeStep_map_id (passBOuter_sizeStep l.length l [] 0)
  unfold passB
  exact List.Nodup.sublist (List.Sublist.map _ (List.filter_sublist _)) (harr ▸ hnd)

/-- Every engine operation keeps the stored ids pairwise distinct. -/
theorem nodup_execOp {st : GameState} (hnd : (st.shrimps.map Shrimp.id).Nodup) (op : Op) :
    ((execOp st op).shrimps.map Shrimp.id).Nodup := by
  cases op with
  | add id =>
    have hanyf : (mapDelete st.shrimps id).any (fun t => t.id == id) = false := by
      rw [List.any_eq_false]
      intro t ht
      simp [mapDelete_id_ne st.shrimps id t ht]
    show ((mapSet (mapDelete st.shrimps id) _).map Shrimp.id).Nodup
    unfold mapSet
    rw [if_neg (by rw [hanyf]; exact Bool.false_ne_true), List.map_append]
    have hdelnd : ((mapDelete st.shrimps id).map Shrimp.id).Nodup :=
      List.Nodup.sublist (List.Sublist.map _ (List.filter_sublist _)) hnd
    rw [List.nodup_append]
    refine ⟨hdelnd, List.nodup_singleton _, ?_⟩
    intro a ha hb
    obtain ⟨u, hu, rfl⟩ := List.mem_map.mp ha
    have hbid : u.id = id := by simpa using hb
    exact mapDelete_id_ne st.shrimps id u hu hbid
  | move id x y =>
    show (((updateShrimpPosition st id x y).2.shrimps).map Shrimp.id).Nodup
    unfold updateShrimpPosition
    cases hfind : st.shrimps.find? (fun s => s.id == id) with
    | none => exact hnd
    | some sh =>
      dsimp only
      have heq := mapSet_map_id_of_any st.shrimps
        { sh with x := max 0 (min CONFIG.mapWidth x), y := max 0 (min CONFIG.mapHeight y) }
        (by rw [List.any_eq_true]; exact ⟨sh, List.mem_of_find?_eq_some hfind, by simp⟩)
      rw [heq]
      exact hnd
  | tick =>
    show (((processEating st).shrimps).map Shrimp.id).Nodup
    rw [processEating_shrimps]
    split
    · exact hnd
    · have hA := forall₂_sizeStep_map_id
        (passA_sizeStep st.rng st.shrimps st.foods st.rngIdx)
      exact nodup_passB (hA ▸ hnd)

/-- Every engine operation keeps all sizes within the cap. -/
theorem cap_execOp {st : GameState}
    (hcap : ∀ s ∈ st.shrimps, s.size ≤ CONFIG.maxShrimpSize) (op : Op) :
    ∀ t ∈ (execOp st op).shrimps, t.size ≤ CONFIG.maxShrimpSize := by
  intro t ht
  cases op with
  | add id =>
    rcases mem_mapSet ht with hmem | rfl
    · exact hcap t (List.mem_of_mem_filter hmem)
    · show CONFIG.initialShrimpSize ≤ CONFIG.maxShrimpSize
      norm_num [CONFIG]
  | move id x y =>
    have ht' : t ∈ (updateShrimpPosition st id x y).2.shrimps := ht
    unfold updateShrimpPosition at ht'
    cases hfind : st.shrimps.find? (fun s => s.id == id) with
    | none =>
      rw [hfind] at ht'
      exact hcap t ht'
    | some sh =>
      rw [hfind] at ht'
      dsimp only at ht'
      rcases mem_mapSet ht' with hmem | rfl
      · exact hcap t hmem
      · exact hcap sh (List.mem_of_find?_eq_some hfind)
  | tick =>
    obtain ⟨u, hu, hstep⟩ := processEating_mem_sizeStep ht
    exact hstep.2.2 (hcap u hu)

/-- A single engine operation other than a respawn of the same id never
shrinks a player that stays alive through it. -/
theorem mono_execOp {st : GameState} {id : String} (op : Op)
    (hnd : (st.shrimps.map Shrimp.id).Nodup) (hop : op ≠ Op.add id) :
    ∀ s ∈ st.shrimps, s.id = id → ∀ t ∈ (execOp st op).shrimps, t.id = id →
      s.size ≤ t.size := by
  intro s hs hsid t ht htid
  cases op with
  | add id2 =>
    have hne : id2 ≠ id := fun he => hop (by rw [he])
    rcases mem_mapSet ht with hmem | rfl
    · have hmem' : t ∈ st.shrimps := List.mem_of_mem_filter hmem
      rw [mem_id_unique hnd hs hmem' (htid.trans hsid.symm)]
    · exact absurd htid hne
  | move id2 x y =>
    have ht' : t ∈ (updateShrimpPosition st id2 x y).2.shrimps := ht
    unfold updateShrimpPosition at ht'
    cases hfind : st.shrimps.find? (fun u => u.id == id2) with
    | none =>
      rw [hfind] at ht'
      rw [mem_id_unique hnd hs ht' (htid.trans hsid.symm)]
    | some sh =>
      rw [hfind] at ht'
      dsimp only at ht'
      have hshmem : sh ∈ st.shrimps := List.mem_of_find?_eq_some hfind
      rcases mem_mapSet ht' with hmem | rfl
      · rw [mem_id_unique hnd hs hmem (htid.trans hsid.symm)]
      · have hsh : sh = s := mem_id_unique hnd hs hshmem (htid.trans hsid.symm)
        rw [← hsh]
  | tick =>
    obtain ⟨u, hu, hstep⟩ := processEating_mem_sizeStep ht
    have hu' : u = s := mem_id_unique hnd hs hu ((hstep.1.trans htid).trans hsid.symm)
    exact hu' ▸ hstep.2.1

/-- A single engine operation other than a spawn under the id cannot bring
the id back to life. -/
theorem absent_execOp {st : GameState} {id : String} (op : Op)
    (habs : ∀ u ∈ st.shrimps, u.id ≠ id) (hop : op ≠ Op.add id) :
    ∀ t ∈ (execOp st op).shrimps, t.id ≠ id := by
  intro t ht
  cases op with
  | add id2 =>
    have hne : id2 ≠ id := fun he => hop (by rw [he])
    rcases mem_mapSet ht with hmem | rfl
    · exact habs t (List.mem_of_mem_filter hmem)
    · exact hne
  | move id2 x y =>
    have ht' : t ∈ (updateShrimpPosition st id2 x y).2.shrimps := ht
    unfold updateShrimpPosition at ht'
    cases hfind : st.shrimps.find? (fun u => u.id == id2) with
    | none =>
      rw [hfind] at ht'
      exact habs t ht'
    | some sh =>
      rw [hfind] at ht'
      dsimp only at ht'
      rcases mem_mapSet ht' with hmem | rfl
      · exact habs t hmem
      · exact habs sh (List.mem_of_find?_eq_some hfind)
  | tick =>
    obtain ⟨u, hu, hstep⟩ := processEating_mem_sizeStep ht
    exact hstep.1 ▸ habs u hu

/-- A sequence of operations without a spawn under the id cannot bring the
id back to life. -/
theorem absent_execOps {st : GameState} {id : String} (ops : List Op)
    (habs : ∀ u ∈ st.shrimps, u.id ≠ id) (hadd : Op.add id ∉ ops) :
    ∀ t ∈ (execOps st ops).shrimps, t.id ≠ id := by
  induction ops generalizing st with
  | nil => exact habs
  | cons op rest ih =>
    have hop : op ≠ Op.add id := by
      intro he
      exact hadd (by rw [he]; exact List.mem_cons_self _ _)
    have haddr : Op.add id ∉ rest := fun hm => hadd (List.mem_cons_of_mem _ hm)
    exact ih (absent_execOp op habs hop) haddr

/-- C4: across any sequence of `addShrimp`, `updateShrimpPosition` and
`processEating` operations on a store with pairwise-distinct ids and all
sizes within the cap, every live player's size stays at most
`maxShrimpSize`; and a player alive at both ends that is never respawned
under its id (`addShrimp` destroys and recreates the player) never lost
size, however many food or player consumptions occurred in between. -/
theorem size_monotone_and_bounded (st : GameState) (id : String) (ops : List Op)
    (hnd : (st.shrimps.map Shrimp.id).Nodup)
    (hcap : ∀ s ∈ st.shrimps, s.size ≤ CONFIG.maxShrimpSize)
    (hadd : Op.add id ∉ ops) :
    (∀ t ∈ (execOps st ops).shrimps, t.size ≤ CONFIG.maxShrimpSize)
    ∧ (∀ s ∈ st.shrimps, s.id = id → ∀ t ∈ (execOps st ops).shrimps, t.id = id →
        s.size ≤ t.size) := by
  induction ops generalizing st with
  | nil =>
    refine ⟨hcap, ?_⟩
    intro s hs hsid t ht htid
    rw [mem_id_unique hnd hs ht (htid.trans hsid.symm)]
  | cons op rest ih =>
    have hop : op ≠ Op.add id := by
      intro he
      exact hadd (by rw [he]; exact List.mem_cons_self _ _)
    have haddr : Op.add id ∉ rest := fun hm => hadd (List.mem_cons_of_mem _ hm)
    obtain ⟨ihcap, ihmono⟩ := ih (execOp st op) (nodup_execOp hnd op) (cap_execOp hcap op) haddr
    refine ⟨ihcap, ?_⟩
    intro s hs hsid t ht htid
    by_cases hex : ∃ s1 ∈ (execOp st op).shrimps, s1.id = id
    · obtain ⟨s1, hs1, hs1id⟩ := hex
      exact le_trans (mono_execOp op hnd hop s hs hsid s1 hs1 hs1id)
        (ihmono s1 hs1 hs1id t ht htid)
    · push_neg at hex
      exact absurd htid (absent_execOps rest hex haddr t ht)

/-- Witness for C4: one player eats a food during a tick (size 10 to 11)
and then moves; its size never decreased and stayed within the cap. -/
theorem size_monotone_and_bounded_witness :
    (execOps ⟨[⟨"A", 100, 100, 10, 0⟩], [⟨100, 100, 4⟩], fun _ => 0, 0⟩
        [Op.tick, Op.move "A" 300 300]).shrimps = [⟨"A", 300, 300, 11, 5⟩]
    ∧ (⟨"A", 300, 300, 11, 5⟩ : Shrimp).size ≤ CONFIG.maxShrimpSize
    ∧ (⟨"A", 100, 100, 10, 0⟩ : Shrimp).size ≤ (⟨"A", 300, 300, 11, 5⟩ : Shrimp).size := by
  have heq : (execOps ⟨[⟨"A", 100, 100, 10, 0⟩], [⟨100, 100, 4⟩], fun _ => 0, 0⟩
      [Op.tick, Op.move "A" 300 300]).shrimps = [⟨"A", 300, 300, 11, 5⟩] := by decide
  have h := size_monotone_and_bounded ⟨[⟨"A", 100, 100, 10, 0⟩], [⟨100, 100, 4⟩], fun _ => 0, 0⟩
    "A" [Op.tick, Op.move "A" 300 300] (by decide) (by decide) (by decide)
  refine ⟨heq, ?_, ?_⟩
  · exact h.1 ⟨"A", 300, 300, 11, 5⟩ (by rw [heq]; exact List.mem_singleton_self _)
  · exact h.2 ⟨"A", 100, 100, 10, 0⟩ (List.mem_singleton_self _) rfl
      ⟨"A", 300, 300, 11, 5⟩ (by rw [heq]; exact List.mem_singleton_self _) rfl

end ClaimC4

section ClaimC10

/-- C10: `updateShrimpPosition` for a live player only moves that player.
The call returns the stored player with just the (clamped) coordinates
replaced — id, size and score unchanged; the foods array is untouched;
every other player's entry is still present unchanged; and the returned
shrimp is exactly the single stored entry under the id afterwards. -/
theorem updateShrimpPosition_frame (st : GameState) (id : String) (x y : ℚ) (sh : Shrimp)
    (hfind : st.shrimps.find? (fun s => s.id == id) = some sh)
    (hnd : (st.shrimps.map Shrimp.id).Nodup) :
    (updateShrimpPosition st id x y).1
        = some { sh with
            x := max 0 (min CONFIG.mapWidth x),
            y := max 0 (min CONFIG.mapHeight y) }
    ∧ (updateShrimpPosition st id x y).2.foods = st.foods
    ∧ (∀ t ∈ st.shrimps, t.id ≠ id → t ∈ (updateShrimpPosition st id x y).2.shrimps)
    ∧ (updateShrimpPosition st id x y).2.shrimps.filter (fun t => t.id == id)
        = [{ sh with
            x := max 0 (min CONFIG.mapWidth x),
            y := max 0 (min CONFIG.mapHeight y) }] := by
  have hshmem : sh ∈ st.shrimps := List.mem_of_find?_eq_some hfind
  have hshid : sh.id = id := by simpa using List.find?_some hfind
  set sh1 : Shrimp := { sh with
    x := max 0 (min CONFIG.mapWidth x),
    y := max 0 (min CONFIG.mapHeight y) } with hsh1
  have hid1 : sh1.id = id := hshid
  have hany : st.shrimps.any (fun t => t.id == sh1.id) = true :=
    List.any_eq_true.mpr ⟨sh, hshmem, by simp [hid1, hshid]⟩
  have hshr : (updateShrimpPosition st id x y).2.shrimps
      = st.shrimps.map (fun t => if t.id == sh1.id then sh1 else t) := by
    unfold updateShrimpPosition
    rw [hfind]
    dsimp only
    unfold mapSet
    rw [if_pos hany]
  have hupd1 : (updateShrimpPosition st id x y).1 = some sh1 := by
    unfold updateShrimpPosition
    rw [hfind]
  have hfoods : (updateShrimpPosition st id x y).2.foods = st.foods := by
    unfold updateShrimpPosition
    rw [hfind]
  refine ⟨hupd1, hfoods, ?_, ?_⟩
  · intro t ht htne
    rw [hshr]
    refine List.mem_map.mpr ⟨t, ht, ?_⟩
    rw [if_neg (by
      simp only [beq_iff_eq]
      intro he
      exact htne (he.trans hid1))]
  · rw [hshr]
    have hids : ((st.shrimps.map (fun t => if t.id == sh1.id then sh1 else t)).map Shrimp.id)
        = st.shrimps.map Shrimp.id := by
      rw [List.map_map]
      apply List.map_congr_left
      intro t ht
      show (if t.id == sh1.id then sh1 else t).id = t.id
      by_cases hc : (t.id == sh1.id) = true
      · rw [if_pos hc]
        exact (eq_of_beq hc).symm
      · rw [if_neg hc]
    have hnd' := hids ▸ hnd
    have hmem1 : sh1 ∈ st.shrimps.map (fun t => if t.id == sh1.id then sh1 else t) :=
      List.mem_map.mpr ⟨sh, hshmem, by rw [if_pos (by simp [hid1, hshid])]⟩
    have hfs := filter_id_single hnd' hmem1
    rw [show (fun (t : Shrimp) => t.id == id) = (fun (t : Shrimp) => t.id == sh1.id) from by
      funext t
      rw [hid1]]
    exact hfs

/-- Witness for C10: moving player B far out of range clamps B onto the
boundary; player A and the food are untouched, and the returned shrimp is
the stored one. -/
theorem updateShrimpPosition_frame_witness :
    (updateShrimpPosition ⟨[⟨"A", 1, 2, 10, 0⟩, ⟨"B", 3, 4, 20, 7⟩], [⟨5, 6, 4⟩],
        fun _ => 0, 0⟩ "B" 900 (-5)).1 = some ⟨"B", 800, 0, 20, 7⟩
    ∧ (updateShrimpPosition ⟨[⟨"A", 1, 2, 10, 0⟩, ⟨"B", 3, 4, 20, 7⟩], [⟨5, 6, 4⟩],
        fun _ => 0, 0⟩ "B" 900 (-5)).2.foods = [⟨5, 6, 4⟩]
    ∧ ⟨"A", 1, 2, 10, 0⟩ ∈ (updateShrimpPosition ⟨[⟨"A", 1, 2, 10, 0⟩, ⟨"B", 3, 4, 20, 7⟩],
        [⟨5, 6, 4⟩], fun _ => 0, 0⟩ "B" 900 (-5)).2.shrimps
    ∧ (updateShrimpPosition ⟨[⟨"A", 1, 2, 10, 0⟩, ⟨"B", 3, 4, 20, 7⟩], [⟨5, 6, 4⟩],
        fun _ => 0, 0⟩ "B" 900 (-5)).2.shrimps.filter (fun t => t.id == "B")
      = [⟨"B", 800, 0, 20, 7⟩] := by
  have h := updateShrimpPosition_frame ⟨[⟨"A", 1, 2, 10, 0⟩, ⟨"B", 3, 4, 20, 7⟩],
    [⟨5, 6, 4⟩], fun _ => 0, 0⟩ "B" 900 (-5) ⟨"B", 3, 4, 20, 7⟩ (by decide) (by decide)
  refine ⟨h.1.trans (by decide), h.2.1, ?_, (h.2.2.2).trans (by decide)⟩
  exact h.2.2.1 ⟨"A", 1, 2, 10, 0⟩ (by decide) (by decide)

end ClaimC10

end ShrimpGame
